import Mathlib

/-!
Shallow embedding of `setup_and_demo.py` and `test.py` from the
`assigmentno2ds` repository, with theorems checking the specification's
claims about the batched synthetic-dataset generator, the demo
orchestrator, and the revenue aggregation script.
-/

namespace SalesDemo

/-- Model of the NumPy global random state.  The Mersenne Twister is not
reproduced bit for bit: `ints` stands for the stream of raw draws consumed
by `np.random.randint` and `np.random.choice`, `vals` for the stream of
values produced by `np.random.lognormal` (strictly positive via
`lognormalDraw`), and `pos` counts how many draws have been consumed.
Range properties are proved for every stream, hence in particular for the
real NumPy stream. -/
structure Rng where
  ints : Nat → Nat
  vals : Nat → ℚ
  pos : Nat

/-- Model of `np.random.seed(s)`: replaces the global state by a
deterministic function of the seed alone.  The concrete mixing formula is
an arbitrary stand-in; no claim depends on the individual values. -/
def npSeed (seed : Nat) : Rng :=
  { ints := fun n => (seed * 1103515245 + n * 12345 + 12345) % 4294967296
    vals := fun n => (((seed + n) % 97 : Nat) : ℚ) + 1 / 2
    pos := 0 }

/-- Advance the stream position after a vectorized draw of `n` values. -/
def Rng.advance (r : Rng) (n : Nat) : Rng :=
  { r with pos := r.pos + n }

/-- Model of `np.random.randint(lo, hi, n)`: `n` uniform draws in the
half-open range `[lo, hi)`. -/
def randintVec (lo hi n : Nat) (r : Rng) : List Nat × Rng :=
  ((List.range n).map fun j => lo + r.ints (r.pos + j) % (hi - lo), r.advance n)

/-- Model of `np.random.choice(pool, n)`: `n` uniform picks from `pool`. -/
def choiceVec (pool : List String) (n : Nat) (r : Rng) : List String × Rng :=
  ((List.range n).map fun j => pool.getD (r.ints (r.pos + j) % pool.length) "",
    r.advance n)

/-- Model of one `np.random.lognormal` draw: a lognormal variate is
`exp (mu + sigma * Z)`, strictly positive whatever `Z` is, so the model
forces positivity while leaving the magnitude arbitrary. -/
def lognormalDraw (x : ℚ) : ℚ := if 0 < x then x else 1

/-- Model of `np.random.lognormal(mean=3, sigma=1, size=n)`. -/
def lognormalVec (n : Nat) (r : Rng) : List ℚ × Rng :=
  ((List.range n).map fun j => lognormalDraw (r.vals (r.pos + j)), r.advance n)

/-- Model of `np.round(x, 2)` over exact rationals (tie-breaking at exact
half-cents differs from banker's rounding; no claim depends on ties). -/
def round2 (x : ℚ) : ℚ := ((round (x * 100) : ℤ) : ℚ) / 100

/-- One synthetic transaction record, i.e. one data row of the generated
CSV file.  `orderDate` is the timestamp measured in whole hours after
2020-01-01 00:00 (the `pd.date_range` start). -/
structure Row where
  transactionID : Nat
  orderDate : Nat
  productID : Nat
  productName : String
  category : String
  price : ℚ
  quantity : Nat
  customerID : Nat
  region : String
  deriving DecidableEq

instance : Inhabited Row := ⟨⟨0, 0, 0, "", "", 0, 0, 0, ""⟩⟩

/-- The CSV header: the 9 column names (`columns` in the script). -/
def columns : List String :=
  ["TransactionID", "OrderDate", "ProductID", "ProductName",
   "Category", "Price", "Quantity", "CustomerID", "Region"]

/-- The 10 fixed category names. -/
def categories : List String :=
  ["Electronics", "Clothing", "Home & Garden", "Sports", "Books",
   "Toys", "Health", "Automotive", "Food", "Beauty"]

/-- The 5 fixed region names. -/
def regions : List String := ["North", "South", "East", "West", "Central"]

/-- The pool of 1000 synthetic product names. -/
def productNames : List String :=
  (List.range' 1 1000).map fun i => "Product_" ++ toString i

/-- `batch_size = 100000`. -/
def batchSize : Nat := 100000

/-- `total_days = 365 * 4`, the 4-year window in days. -/
def totalDays : Nat := 365 * 4

/-- One loop iteration of `create_large_sample_dataset`: the column-wise
vectorized draws for rows `batch_start .. batch_end - 1`, assembled into
rows (the `pd.DataFrame(batch_data)` of equal-length columns, appended to
the file), together with the advanced random state. -/
def genBatch (batchStart batchEnd : Nat) (r : Rng) : List Row × Rng :=
  let batchRows := batchEnd - batchStart
  let hoursPerBatch := max 1 (totalDays * 24 / batchRows)
  let transactionIDs := List.range' (batchStart + 1) batchRows
  let orderDates := (List.range batchRows).map fun k => k * hoursPerBatch
  let (productIDs, r1) := randintVec 1000 9999 batchRows r
  let (names, r2) := choiceVec productNames batchRows r1
  let (cats, r3) := choiceVec categories batchRows r2
  let (rawPrices, r4) := lognormalVec batchRows r3
  let prices := rawPrices.map round2
  let (quantities, r5) := randintVec 1 10 batchRows r4
  let (customerIDs, r6) := randintVec 10000 99999 batchRows r5
  let (regionCol, r7) := choiceVec regions batchRows r6
  ((List.range batchRows).map fun k =>
    { transactionID := transactionIDs.getD k 0
      orderDate := orderDates.getD k 0
      productID := productIDs.getD k 0
      productName := names.getD k ""
      category := cats.getD k ""
      price := prices.getD k 0
      quantity := quantities.getD k 0
      customerID := customerIDs.getD k 0
      region := regionCol.getD k "" }, r7)

/-- `range(0, num_rows, batch_size)`: the list of batch start offsets. -/
def batchStarts (numRows : Nat) : List Nat :=
  List.range' 0 ((numRows + batchSize - 1) / batchSize) batchSize

/-- The per-batch row counts `batch_end - batch_start` of the loop. -/
def batchRowCounts (numRows : Nat) : List Nat :=
  (batchStarts numRows).map fun s => min (s + batchSize) numRows - s

/-- The generation loop of `create_large_sample_dataset`: one `genBatch`
per batch start, each batch appended after the previous one and the random
state threaded through. -/
def genLoop (r : Rng) (starts : List Nat) (numRows : Nat) : List Row :=
  match starts with
  | [] => []
  | s :: rest =>
      let p := genBatch s (min (s + batchSize) numRows) r
      p.1 ++ genLoop p.2 rest numRows

/-- A generated CSV file: the header line and the data rows. -/
structure CsvFile where
  header : List String
  rows : List Row
  deriving DecidableEq

/-- Number of text lines of the file as written by `to_csv`: one header
line, then one line per data row. -/
def lineCount (f : CsvFile) : Nat := 1 + f.rows.length

/-- `create_large_sample_dataset(filename, num_rows)`.  `g` is the ambient
global NumPy random state at call time; the function's first statement
`np.random.seed(42)` replaces it, so the result ignores `g`.  The file
contents are modelled structurally; writing bytes to disk is I/O outside
the embedding. -/
def create_large_sample_dataset (g : Rng) (numRows : Nat) : CsvFile :=
  { header := columns
    rows := genLoop (npSeed 42) (batchStarts numRows) numRows }

/-- Observable actions of the demo orchestrator, in program order. -/
inductive Action where
  | generate (file : String) (rows : Nat)
  | startServer (file : String)
  | sleepSeconds (n : Nat)
  | startWorker
  | waitForServer
  | terminateWorkers
  deriving DecidableEq

/-- Whether an action is an invocation of the dataset generator. -/
def isGenerate : Action → Bool
  | .generate _ _ => true
  | _ => false

/-- Python truthiness of the `csv_file` argument: `None` and the empty
string are falsy. -/
def falsyFile : Option String → Bool
  | none => true
  | some f => f = ""

/-- Trace of `run_demo_with_multiple_workers(csv_file, num_workers)`: the
default-and-generate step guarded by `if not csv_file`, then the server
start, the fixed 3 second sleep, the staggered worker starts, the wait on
the server, and the cleanup.  `fileExists` models `os.path.exists`. -/
def run_demo_with_multiple_workers (fileExists : String → Bool)
    (csvFile : Option String) (numWorkers : Nat) : List Action :=
  let step :=
    if falsyFile csvFile then
      if fileExists "sales_data_1m.csv" then ("sales_data_1m.csv", ([] : List Action))
      else ("sales_data_1m.csv", [Action.generate "sales_data_1m.csv" 1000000])
    else (csvFile.getD "", ([] : List Action))
  step.2 ++ [Action.startServer step.1, Action.sleepSeconds 3]
    ++ (List.flatten ((List.range numWorkers).map
          fun _ => [Action.startWorker, Action.sleepSeconds 1]))
    ++ [Action.waitForServer, Action.terminateWorkers]

/-- Model of Python `str.lower()`: lower-case each character. -/
def lowerString (s : String) : String :=
  String.mk (s.data.map Char.toLower)

/-- Effect trace of `main()`.  `argv` is the full `sys.argv` including the
script name.  The `check` and `scripts` commands and the usage message
perform none of the modelled actions. -/
def mainTrace (fileExists : String → Bool) (argv : List String) : List Action :=
  if argv.length < 2 then []
  else
    let command := lowerString (argv.getD 1 "")
    if command = "create_small" then [Action.generate "sales_data_1m.csv" 1000000]
    else if command = "create_large" then [Action.generate "sales_data_5m.csv" 5000000]
    else if command = "demo" then
      let csvFile := if argv.length < 3 then "sales_data_1m.csv" else argv.getD 2 ""
      run_demo_with_multiple_workers fileExists (some csvFile) 3
    else []

/-- The derived column of `test.py`: the per-row `Price * Quantity`, one
entry per row of the loaded CSV, a row modelled by its (Price, Quantity)
pair. -/
def productColumn (dat : List (ℚ × ℚ)) : List ℚ :=
  dat.map fun rq => rq.1 * rq.2

/-- `sum(product_list)` of `test.py`: Python `sum` folds `+` over the list
starting from 0. -/
def totalRevenue (dat : List (ℚ × ℚ)) : ℚ :=
  (productColumn dat).foldl (· + ·) 0

/-! ### List helpers -/

theorem getD_map_range {α : Type} {n i : Nat} (h : i < n) (f : Nat → α) (d : α) :
    ((List.range n).map f).getD i d = f i := by
  simp [List.getD_eq_getElem?_getD, List.getElem?_range h]

theorem getD_range'_eq {a n i : Nat} (h : i < n) (d : Nat) :
    (List.range' a n).getD i d = a + i := by
  simp [List.getD_eq_getElem?_getD, List.getElem?_range' a 1 h]

theorem getD_mem {α : Type} {l : List α} (i : Nat) (d : α) (h : i < l.length) :
    l.getD i d ∈ l := by
  rw [List.getD_eq_getElem?_getD, List.getElem?_eq_getElem h]
  exact List.getElem_mem h

theorem foldl_add_eq_add_sum (l : List ℚ) (a : ℚ) :
    l.foldl (· + ·) a = a + l.sum := by
  induction l generalizing a with
  | nil => simp
  | cons x l ih => simp [ih, add_assoc]

/-! ### Structure of one generated batch -/

theorem genBatch_length (s e : Nat) (r : Rng) :
    (genBatch s e r).1.length = e - s := by
  simp [genBatch, randintVec, choiceVec, lognormalVec]

theorem genBatch_map_transactionID (s e : Nat) (r : Rng) :
    (genBatch s e r).1.map (fun row => row.transactionID)
      = List.range' (s + 1) (e - s) := by
  apply List.ext_getElem
  · simp [genBatch_length]
  · intro i h1 h2
    have hb : i < e - s := by
      simpa [genBatch_length] using h1
    simp [genBatch, randintVec, choiceVec, lognormalVec,
      List.getElem?_range' (s + 1) 1 hb, Nat.add_right_comm]

theorem genBatch_map_orderDate (s e : Nat) (r : Rng) :
    (genBatch s e r).1.map (fun row => row.orderDate)
      = (List.range (e - s)).map
          (fun k => k * max 1 (totalDays * 24 / (e - s))) := by
  apply List.ext_getElem
  · simp [genBatch_length]
  · intro i h1 h2
    have hb : i < e - s := by
      simpa [genBatch_length] using h1
    simp [genBatch, randintVec, choiceVec, lognormalVec, List.getElem?_range hb]

theorem genBatch_mem_ranges {s e : Nat} {r : Rng} {row : Row}
    (h : row ∈ (genBatch s e r).1) :
    1 ≤ row.quantity ∧ row.quantity ≤ 9 ∧
    1000 ≤ row.productID ∧ row.productID ≤ 9998 ∧
    10000 ≤ row.customerID ∧ row.customerID ≤ 99998 := by
  simp only [genBatch, randintVec, choiceVec, lognormalVec, List.mem_map,
    List.mem_range] at h
  obtain ⟨k, hk, hrow⟩ := h
  subst hrow
  refine ⟨?_, ?_, ?_, ?_, ?_, ?_⟩ <;>
    simp [List.getElem?_range hk] <;> omega

theorem genBatch_mem_price {s e : Nat} {r : Rng} {row : Row}
    (h : row ∈ (genBatch s e r).1) :
    ∃ n : Nat, row.price = round2 (lognormalDraw (r.vals n)) := by
  simp only [genBatch, randintVec, choiceVec, lognormalVec, Rng.advance,
    List.mem_map, List.mem_range] at h
  obtain ⟨k, hk, hrow⟩ := h
  subst hrow
  exact ⟨r.pos + (e - s) + (e - s) + (e - s) + k,
    by simp [List.map_map, Function.comp, List.getElem?_range hk]⟩

theorem genBatch_snd_vals (s e : Nat) (r : Rng) :
    (genBatch s e r).2.vals = r.vals := by
  simp [genBatch, randintVec, choiceVec, lognormalVec, Rng.advance]

/-! ### Structure of the whole generation loop -/

theorem genLoop_mem {starts : List Nat} {r : Rng} {N : Nat} {row : Row}
    (h : row ∈ genLoop r starts N) :
    ∃ s e r', row ∈ (genBatch s e r').1 := by
  induction starts generalizing r with
  | nil => simp [genLoop] at h
  | cons s rest ih =>
      simp only [genLoop, List.mem_append] at h
      rcases h with h | h
      · exact ⟨_, _, _, h⟩
      · exact ih h

theorem genLoop_mem_price {starts : List Nat} {r : Rng} {N : Nat} {row : Row}
    (h : row ∈ genLoop r starts N) :
    ∃ n : Nat, row.price = round2 (lognormalDraw (r.vals n)) := by
  induction starts generalizing r with
  | nil => simp [genLoop] at h
  | cons s rest ih =>
      simp only [genLoop, List.mem_append] at h
      rcases h with h | h
      · exact genBatch_mem_price h
      · obtain ⟨n, hn⟩ := ih h
        rw [genBatch_snd_vals] at hn
        exact ⟨n, hn⟩

theorem genLoop_map_transactionID (k : Nat) :
    ∀ (s : Nat) (r : Rng) (N : Nat),
      N ≤ s + k * batchSize →
      (∀ j, j < k → s + j * batchSize < N) →
      (genLoop r (List.range' s k batchSize) N).map (fun row => row.transactionID)
        = List.range' (s + 1) (N - s) := by
  induction k with
  | zero =>
      intro s r N hle _
      have h0 : N - s = 0 := by omega
      simp [genLoop, h0]
  | succ k ih =>
      intro s r N hle hlt
      rw [List.range'_succ]
      have hs : s < N := by
        have := hlt 0 (Nat.succ_pos k)
        simpa using this
      rw [Nat.succ_mul] at hle
      simp only [genLoop, List.map_append, genBatch_map_transactionID]
      rcases Nat.eq_zero_or_pos k with hk0 | hkpos
      · subst hk0
        have hmin : min (s + batchSize) N = N := by omega
        simp [genLoop, hmin]
      · have hbs : s + batchSize < N := by
          have := hlt 1 (by omega)
          rw [Nat.one_mul] at this
          exact this
        have hmin : min (s + batchSize) N = s + batchSize := by omega
        rw [hmin]
        have hrest := ih (s + batchSize)
          (genBatch s (s + batchSize) r).2 N (by omega)
          (fun j hj => by
            have := hlt (j + 1) (by omega)
            rw [Nat.succ_mul] at this
            omega)
        rw [hrest]
        have h1 : s + batchSize - s = batchSize := by omega
        have h2 : s + batchSize + 1 = (s + 1) + batchSize := by omega
        rw [h1, h2, List.range'_append_1]
        have h3 : N - (s + batchSize) + batchSize = N - s := by omega
        rw [h3]

theorem create_map_transactionID (g : Rng) (N : Nat) :
    ((create_large_sample_dataset g N).rows.map fun row => row.transactionID)
      = List.range' 1 N := by
  have h1 : N ≤ 0 + (N + batchSize - 1) / batchSize * batchSize := by
    simp only [batchSize]
    omega
  have h2 : ∀ j, j < (N + batchSize - 1) / batchSize → 0 + j * batchSize < N := by
    intro j hj
    simp only [batchSize] at hj ⊢
    omega
  simpa [create_large_sample_dataset, batchStarts]
    using genLoop_map_transactionID ((N + batchSize - 1) / batchSize) 0 (npSeed 42) N h1 h2

theorem create_rows_length (g : Rng) (N : Nat) :
    (create_large_sample_dataset g N).rows.length = N := by
  have h := congrArg List.length (create_map_transactionID g N)
  simpa using h

theorem lineCount_create (g : Rng) (N : Nat) :
    lineCount (create_large_sample_dataset g N) = N + 1 := by
  show 1 + (create_large_sample_dataset g N).rows.length = N + 1
  rw [create_rows_length]
  omega

/-! ### Rounding and the price column -/

theorem lognormalDraw_pos (x : ℚ) : 0 < lognormalDraw x := by
  unfold lognormalDraw
  split
  · assumption
  · norm_num

theorem round2_nonneg {x : ℚ} (h : 0 ≤ x) : 0 ≤ round2 x := by
  unfold round2
  have h1 : (0:ℤ) ≤ round (x * 100) := by
    rw [round_eq]
    apply Int.le_floor.mpr
    push_cast
    linarith
  have h2 : (0:ℚ) ≤ ((round (x * 100) : ℤ) : ℚ) := by exact_mod_cast h1
  apply div_nonneg h2
  norm_num

theorem round2_pos {x : ℚ} (h : 1/200 ≤ x) : 0 < round2 x := by
  unfold round2
  have h1 : (1:ℤ) ≤ round (x * 100) := by
    rw [round_eq]
    apply Int.le_floor.mpr
    push_cast
    linarith
  have h2 : (1:ℚ) ≤ ((round (x * 100) : ℤ) : ℚ) := by exact_mod_cast h1
  apply div_pos (by linarith)
  norm_num

theorem lognormalDraw_of_pos {x : ℚ} (h : 0 < x) : lognormalDraw x = x := by
  unfold lognormalDraw
  rw [if_pos h]

/-! ### Batch splitting at concrete sizes -/

theorem batchStarts_zero : batchStarts 0 = [] := by decide

theorem batchStarts_of_le {N : Nat} (h1 : 0 < N) (h2 : N ≤ batchSize) :
    batchStarts N = [0] := by
  unfold batchStarts
  have h : (N + batchSize - 1) / batchSize = 1 := by
    simp only [batchSize] at h2 ⊢
    omega
  rw [h]
  rfl

theorem create_rows_single (g : Rng) {N : Nat} (h1 : 0 < N) (h2 : N ≤ batchSize) :
    (create_large_sample_dataset g N).rows = (genBatch 0 N (npSeed 42)).1 := by
  have hmin : min (0 + batchSize) N = N := by
    simp only [batchSize] at h2 ⊢
    omega
  unfold create_large_sample_dataset
  dsimp only
  rw [batchStarts_of_le h1 h2]
  simp only [genLoop]
  rw [hmin]
  simp [genLoop]

theorem batchStarts_200000 : batchStarts 200000 = [0, 100000] := by decide

theorem batchRowCounts_250000 :
    batchRowCounts 250000 = [100000, 100000, 50000] := by decide

theorem create_rows_200000 :
    (create_large_sample_dataset (npSeed 0) 200000).rows
      = (genBatch 0 100000 (npSeed 42)).1
        ++ (genBatch 100000 200000 (genBatch 0 100000 (npSeed 42)).2).1 := by
  have m1 : min (0 + batchSize) 200000 = 100000 := by decide
  have m2 : min (100000 + batchSize) 200000 = 200000 := by decide
  unfold create_large_sample_dataset
  dsimp only
  rw [batchStarts_200000]
  simp only [genLoop]
  rw [m1, m2]
  simp [genLoop]

/-! ### Claim theorems -/

/-- C2: for every requested row count `N`, the TransactionID column of the
generated file equals exactly the sequence `1..N`, contiguous and strictly
increasing with no gaps or duplicates, regardless of batch boundaries. -/
theorem transactionID_eq_one_to_N (g : Rng) (N : Nat) :
    ((create_large_sample_dataset g N).rows.map fun row => row.transactionID)
      = List.range' 1 N :=
  create_map_transactionID g N

/-- C3: for every requested row count `N` the generated file has exactly
`N` data rows plus one header row; for `N = 250000` with batch size
`100000` the loop processes exactly 3 batches of 100000, 100000 and 50000
rows, and the final file has 250001 lines including the header. -/
theorem row_count_and_batch_split :
    (∀ (g : Rng) (N : Nat),
        (create_large_sample_dataset g N).rows.length = N
        ∧ lineCount (create_large_sample_dataset g N) = N + 1)
    ∧ batchRowCounts 250000 = [100000, 100000, 50000]
    ∧ lineCount (create_large_sample_dataset (npSeed 0) 250000) = 250001 := by
  exact ⟨fun g N => ⟨create_rows_length g N, lineCount_create g N⟩,
    batchRowCounts_250000, lineCount_create (npSeed 0) 250000⟩

/-- C4: the generator reseeds the global random state with the fixed seed
42 as its first step, so its output is a deterministic function of the
requested row count alone: two runs from arbitrary ambient random states
produce identical files. -/
theorem generator_deterministic (g1 g2 : Rng) (N : Nat) :
    create_large_sample_dataset g1 N = create_large_sample_dataset g2 N := rfl

/-- C5: every row of the generated file has Quantity in `[1, 9]`,
ProductID in `[1000, 9998]` and CustomerID in `[10000, 99998]` (the upper
bounds of the half-open `randint` draws are exclusive). -/
theorem randint_column_bounds (g : Rng) (N : Nat) (row : Row)
    (h : row ∈ (create_large_sample_dataset g N).rows) :
    1 ≤ row.quantity ∧ row.quantity ≤ 9 ∧
    1000 ≤ row.productID ∧ row.productID ≤ 9998 ∧
    10000 ≤ row.customerID ∧ row.customerID ≤ 99998 := by
  have h' : row ∈ genLoop (npSeed 42) (batchStarts N) N := h
  obtain ⟨s, e, r', hmem⟩ := genLoop_mem h'
  exact genBatch_mem_ranges hmem

/-- Witness for C5 at the concrete first row of a 1-row generation. -/
theorem randint_column_bounds_witness :
    ((create_large_sample_dataset (npSeed 0) 1).rows.getD 0 default
        ∈ (create_large_sample_dataset (npSeed 0) 1).rows)
    ∧ (1 ≤ ((create_large_sample_dataset (npSeed 0) 1).rows.getD 0 default).quantity
        ∧ ((create_large_sample_dataset (npSeed 0) 1).rows.getD 0 default).quantity ≤ 9
        ∧ 1000 ≤ ((create_large_sample_dataset (npSeed 0) 1).rows.getD 0 default).productID
        ∧ ((create_large_sample_dataset (npSeed 0) 1).rows.getD 0 default).productID ≤ 9998
        ∧ 10000 ≤ ((create_large_sample_dataset (npSeed 0) 1).rows.getD 0 default).customerID
        ∧ ((create_large_sample_dataset (npSeed 0) 1).rows.getD 0 default).customerID ≤ 99998) := by
  have hlen : 0 < (create_large_sample_dataset (npSeed 0) 1).rows.length := by
    rw [create_rows_length]
    norm_num
  have hmem := getD_mem 0 default hlen
  exact ⟨hmem, randint_column_bounds (npSeed 0) 1 _ hmem⟩

/-- A random stream all of whose lognormal draws equal 1, i.e. at least
half a cent. -/
def centRng : Rng := ⟨fun _ => 0, fun _ => 1, 0⟩

/-- A random stream on which the lognormal draw is a tenth of a cent. -/
def tinyRng : Rng := ⟨fun _ => 0, fun _ => 1/1000, 0⟩

/-- C7 (counterexample): on a random stream whose lognormal draw is
`1/1000`, the generated row has Price exactly 0 after rounding to 2
decimal places, so "Price is strictly greater than 0 for every row" does
not hold of the generation code: rounding sends positive draws below half
a cent to zero. -/
theorem price_zero_possible :
    ((genBatch 0 1 tinyRng).1.getD 0 default ∈ (genBatch 0 1 tinyRng).1)
    ∧ ¬ (0 < ((genBatch 0 1 tinyRng).1.getD 0 default).price) := by
  have hmem : (genBatch 0 1 tinyRng).1.getD 0 default ∈ (genBatch 0 1 tinyRng).1 := by
    apply getD_mem
    rw [genBatch_length]
    norm_num
  refine ⟨hmem, ?_⟩
  obtain ⟨n, hn⟩ := genBatch_mem_price hmem
  have hv : lognormalDraw (tinyRng.vals n) = 1/1000 := by
    have h1 : tinyRng.vals n = 1/1000 := rfl
    rw [h1, lognormalDraw_of_pos]
    norm_num
  rw [hn, hv]
  norm_num [round2, round_eq]

/-- C7 (amended): every row of a generated file has Price that is an
integer multiple of `1/100` (rounded to exactly 2 decimal places), and
Price is strictly positive provided every lognormal draw of the stream is
at least `1/200` (half a cent); smaller draws round to `0.00`. -/
theorem price_pos_of_draws_ge_half_cent (r : Rng) (starts : List Nat) (N : Nat)
    (row : Row) (hvals : ∀ n, 1/200 ≤ r.vals n) (h : row ∈ genLoop r starts N) :
    0 < row.price ∧ ∃ m : ℤ, row.price = (m : ℚ) / 100 := by
  obtain ⟨n, hn⟩ := genLoop_mem_price h
  constructor
  · rw [hn, lognormalDraw_of_pos (by linarith [hvals n])]
    exact round2_pos (hvals n)
  · refine ⟨round ((lognormalDraw (r.vals n)) * 100), ?_⟩
    rw [hn]
    rfl

/-- Witness for C7 on a concrete stream with draws equal to 1. -/
theorem price_pos_witness :
    (1/200 : ℚ) ≤ centRng.vals 0
    ∧ (0 < ((genLoop centRng [0] 1).getD 0 default).price
        ∧ ∃ m : ℤ, ((genLoop centRng [0] 1).getD 0 default).price = (m : ℚ) / 100) := by
  have hvals : ∀ n, (1:ℚ)/200 ≤ centRng.vals n := by
    intro n
    norm_num [centRng]
  have hlen : 0 < (genLoop centRng [0] 1).length := by
    simp [genLoop, genBatch_length, batchSize]
  exact ⟨hvals 0,
    price_pos_of_draws_ge_half_cent centRng [0] 1 _ hvals (getD_mem 0 default hlen)⟩

/-- Two consecutive batches of evenly spaced dates, each restarting at
offset 0: the sequence drops at the boundary, so it is not non-decreasing
once the first batch has at least 2 rows and a positive step. -/
theorem not_pairwise_of_date_reset {b1 b2 h1 h2 : Nat}
    (hb1 : 2 ≤ b1) (hh1 : 1 ≤ h1) (hb2 : 1 ≤ b2) :
    ¬ List.Pairwise (· ≤ ·)
      ((List.range b1).map (fun k => k * h1)
        ++ (List.range b2).map (fun k => k * h2)) := by
  intro hs
  rw [List.pairwise_append] at hs
  obtain ⟨-, -, hcross⟩ := hs
  have ha : (b1 - 1) * h1 ∈ (List.range b1).map fun k => k * h1 :=
    List.mem_map.mpr ⟨b1 - 1, List.mem_range.mpr (by omega), rfl⟩
  have hb : 0 * h2 ∈ (List.range b2).map fun k => k * h2 :=
    List.mem_map.mpr ⟨0, List.mem_range.mpr (by omega), rfl⟩
  have hle := hcross _ ha _ hb
  rw [Nat.zero_mul] at hle
  have h1pos : 1 ≤ (b1 - 1) * h1 :=
    Nat.one_le_iff_ne_zero.mpr (Nat.mul_ne_zero (by omega) (by omega))
  omega

/-- C1 (counterexample): with `N = 200000` the generated OrderDate column
is not monotonically non-decreasing across the full file: each batch
restarts `pd.date_range` at 2020-01-01, so the date drops back to the
window start at the batch boundary (row 100000 has an earlier OrderDate
than row 99999). -/
theorem orderDate_not_monotone_across_batches :
    ¬ List.Pairwise (· ≤ ·)
      ((create_large_sample_dataset (npSeed 0) 200000).rows.map
        fun row => row.orderDate) := by
  intro hs
  rw [create_rows_200000, List.map_append, genBatch_map_orderDate,
    genBatch_map_orderDate] at hs
  have hb1 : 2 ≤ 100000 - 0 := by norm_num
  have hb2 : 1 ≤ 200000 - 100000 := by norm_num
  exact not_pairwise_of_date_reset hb1 (le_max_left 1 _) hb2 hs

/-- C1 (amended): the OrderDate column is monotonically non-decreasing
within each batch, hence across the whole file whenever the requested row
count is at most the batch size 100000; at each batch boundary the dates
reset to 2020-01-01, so cross-file monotonicity fails for larger `N`. -/
theorem orderDate_monotone_of_single_batch (g : Rng) (N : Nat) (h : N ≤ batchSize) :
    List.Pairwise (· ≤ ·)
      ((create_large_sample_dataset g N).rows.map fun row => row.orderDate) := by
  rcases Nat.eq_zero_or_pos N with h0 | hpos
  · subst h0
    simp [create_large_sample_dataset, batchStarts_zero, genLoop]
  · rw [create_rows_single g hpos h, genBatch_map_orderDate]
    simp only [List.pairwise_map]
    refine List.Pairwise.imp ?_ (List.pairwise_lt_range (N - 0))
    intro a b hab
    exact Nat.mul_le_mul_right _ (le_of_lt hab)

/-- Witness for C1 at the concrete row count 3. -/
theorem orderDate_monotone_witness :
    3 ≤ batchSize
    ∧ List.Pairwise (· ≤ ·)
        ((create_large_sample_dataset (npSeed 0) 3).rows.map
          fun row => row.orderDate) :=
  ⟨by decide, orderDate_monotone_of_single_batch (npSeed 0) 3 (by decide)⟩

/-- C6 (counterexample): with `N = 36000` (a single batch of 36000 rows,
more than the 35040 hours of the 4-year window) the clamped 1-hour step
makes the last OrderDate 35999 hours after 2020-01-01, outside the 4-year
window, so the generated dates do not all lie within the window. -/
theorem orderDate_exceeds_window :
    ¬ (∀ d ∈ ((create_large_sample_dataset (npSeed 0) 36000).rows.map
          fun row => row.orderDate), d ≤ totalDays * 24) := by
  intro hall
  have hcol : ((create_large_sample_dataset (npSeed 0) 36000).rows.map
        fun row => row.orderDate)
      = (List.range (36000 - 0)).map
          (fun k => k * max 1 (totalDays * 24 / (36000 - 0))) := by
    rw [create_rows_single (npSeed 0) (by norm_num) (by decide),
      genBatch_map_orderDate]
  have hmem : 35999 * max 1 (totalDays * 24 / (36000 - 0))
      ∈ ((create_large_sample_dataset (npSeed 0) 36000).rows.map
          fun row => row.orderDate) := by
    rw [hcol]
    exact List.mem_map.mpr ⟨35999, List.mem_range.mpr (by norm_num), rfl⟩
  have hle := hall _ hmem
  have hmax : max 1 (totalDays * 24 / (36000 - 0)) = 1 := by decide
  have hwin : totalDays * 24 = 35040 := by decide
  rw [hmax, Nat.mul_one] at hle
  omega

/-- C6 (amended): within each batch the step between consecutive OrderDate
values equals `max 1 (total window hours / batch row count)` (integer
division, clamped to at least 1 hour), and the OrderDate values all lie
within the 4-year window provided the batch's row count is at most the
window's hour count `365 * 4 * 24 = 35040`; larger batches overflow the
window because of the clamp. -/
theorem orderDate_step_and_window (r : Rng) (s e : Nat) :
    (∀ k, k + 1 < e - s →
      ((genBatch s e r).1.map fun row => row.orderDate).getD (k + 1) 0
        - ((genBatch s e r).1.map fun row => row.orderDate).getD k 0
        = max 1 (totalDays * 24 / (e - s)))
    ∧ (e - s ≤ totalDays * 24 →
        ∀ d ∈ (genBatch s e r).1.map fun row => row.orderDate,
          d ≤ totalDays * 24) := by
  constructor
  · intro k hk
    rw [genBatch_map_orderDate, getD_map_range hk, getD_map_range (by omega)]
    rw [Nat.add_mul, Nat.one_mul]
    omega
  · intro hwin d hd
    rw [genBatch_map_orderDate] at hd
    simp only [List.mem_map, List.mem_range] at hd
    obtain ⟨k, hk, rfl⟩ := hd
    have hbpos : 0 < e - s := by omega
    have h1 : 1 ≤ totalDays * 24 / (e - s) := (Nat.one_le_div_iff hbpos).mpr hwin
    rw [max_eq_right h1]
    calc k * (totalDays * 24 / (e - s))
        ≤ (e - s) * (totalDays * 24 / (e - s)) :=
          Nat.mul_le_mul_right _ (le_of_lt hk)
      _ ≤ totalDays * 24 := by
          rw [Nat.mul_comm]
          exact Nat.div_mul_le_self _ _

/-- Witness for C6 on a concrete 2-row batch. -/
theorem orderDate_step_and_window_witness :
    (((genBatch 0 2 (npSeed 0)).1.map fun row => row.orderDate).getD 1 0
        - ((genBatch 0 2 (npSeed 0)).1.map fun row => row.orderDate).getD 0 0
        = max 1 (totalDays * 24 / (2 - 0)))
    ∧ ((genBatch 0 2 (npSeed 0)).1.map fun row => row.orderDate).getD 0 0
        ≤ totalDays * 24 := by
  have h := orderDate_step_and_window (npSeed 0) 0 2
  refine ⟨h.1 0 (by norm_num), ?_⟩
  apply h.2 (by decide)
  apply getD_mem
  simp [genBatch_length]

/-- C8: the Revenue Aggregator computes the per-row product
`Price * Quantity` and returns the sum of those products as a single
scalar; on the 3-row fixture with Price `[2.00, 3.50, 10.00]` and
Quantity `[2, 1, 1]` the total is `17.50 = 35/2`. -/
theorem revenue_total_correct :
    (∀ dat : List (ℚ × ℚ), totalRevenue dat = (dat.map fun rq => rq.1 * rq.2).sum)
    ∧ totalRevenue [(2, 2), (7/2, 1), (10, 1)] = 35/2 := by
  constructor
  · intro dat
    unfold totalRevenue productColumn
    rw [foldl_add_eq_add_sum, zero_add]
  · norm_num [totalRevenue, productColumn]

/-- Elements of the staggered worker-start block of the demo trace. -/
theorem mem_workerBlock {w : Nat} {a : Action}
    (h : a ∈ List.flatten ((List.range w).map
      fun _ => [Action.startWorker, Action.sleepSeconds 1])) :
    a = Action.startWorker ∨ a = Action.sleepSeconds 1 := by
  simp only [List.mem_flatten, List.mem_map] at h
  obtain ⟨l, ⟨i, hi, rfl⟩, hl⟩ := h
  simpa using hl

/-- C9 (counterexample): the `demo` CLI subcommand with no file argument,
when the dataset file does not exist: `main` passes the default filename
explicitly to the orchestrator, whose `if not csv_file` guard is therefore
false, so the generator is never invoked and the server is launched on the
missing file anyway. -/
theorem demo_cli_skips_generation :
    (∀ a ∈ mainTrace (fun _ => false) ["setup_and_demo.py", "demo"],
      isGenerate a = false)
    ∧ Action.startServer "sales_data_1m.csv"
        ∈ mainTrace (fun _ => false) ["setup_and_demo.py", "demo"] := by
  decide

/-- C9 (amended): the orchestrator generates the missing default dataset
only when called with a falsy `csv_file` argument (Python `None` or `""`);
the generation is then the first action, before the server start.  When
called with a non-empty filename — as `main`'s `demo` command always
does — no existence check happens and no generation occurs. -/
theorem generation_only_on_falsy_argument (ex : String → Bool) (w : Nat) (f : String) :
    (ex "sales_data_1m.csv" = false →
      (run_demo_with_multiple_workers ex none w).head?
        = some (Action.generate "sales_data_1m.csv" 1000000))
    ∧ (f ≠ "" →
      ∀ a ∈ run_demo_with_multiple_workers ex (some f) w, isGenerate a = false) := by
  constructor
  · intro hex
    simp [run_demo_with_multiple_workers, falsyFile, hex]
  · intro hf a ha
    have hfalse : falsyFile (some f) = false := by
      simp [falsyFile, hf]
    simp only [run_demo_with_multiple_workers, hfalse, Bool.false_eq_true,
      if_false, List.nil_append, List.mem_append, List.mem_cons,
      List.not_mem_nil, or_false, Option.getD_some] at ha
    rcases ha with ((rfl | rfl) | ha) | (rfl | rfl)
    · rfl
    · rfl
    · rcases mem_workerBlock ha with rfl | rfl
      · rfl
      · rfl
    · rfl
    · rfl

/-- Witness for C9 with no workers, a missing file and the filename `x`. -/
theorem generation_only_on_falsy_argument_witness :
    ((run_demo_with_multiple_workers (fun _ => false) none 0).head?
        = some (Action.generate "sales_data_1m.csv" 1000000))
    ∧ isGenerate (Action.startServer "x") = false := by
  have h := generation_only_on_falsy_argument (fun _ => false) 0 "x"
  refine ⟨h.1 rfl, ?_⟩
  apply h.2 (by decide)
  decide

/-- C10: calling the generator with a requested row count of 0 produces a
file with the 9-column header row and no data rows (and the call is a
total function, i.e. it returns normally). -/
theorem zero_rows_header_only (g : Rng) :
    (create_large_sample_dataset g 0).rows = []
    ∧ (create_large_sample_dataset g 0).header
        = ["TransactionID", "OrderDate", "ProductID", "ProductName",
           "Category", "Price", "Quantity", "CustomerID", "Region"]
    ∧ lineCount (create_large_sample_dataset g 0) = 1 := by
  refine ⟨?_, rfl, ?_⟩
  · simp [create_large_sample_dataset, batchStarts_zero, genLoop]
  · simp [lineCount, create_rows_length]

end SalesDemo
